import Mathlib

/-!
Shallow embedding of the Citizen object-tracking registry
(`src/src/Citizen.cc`, `src/include/lsst/daf/base/Citizen.h`).

The C++ code keeps two `std::map<Citizen const*, std::pair<memId, pthread_t>>`
tables (`_activeCitizens`, `_persistentCitizens`), a per-thread allocation
counter (`perThreadId`, seeded at 1), a per-thread persistence flag
(`perThreadPersistFlag`), two process-wide watch ids (`_newId`, `_deleteId`)
and three callback slots.  We model the state visible to a single thread:
the two tables become association lists keyed by the object's address
(`Identity`, modelled as `Nat`), the thread's counter and flag become state
fields, and callback invocations are recorded as events in a trace (the
callbacks' return values, where the code uses them, come from callback
fields of the state).  `memId` is `unsigned long`; arithmetic on it is
modelled on `Nat` with an explicit `% 2^64`.  The sentinel field is a C
`int`; we model it as `Int` with explicit 32-bit two's-complement
conversion for the `0xdeadbeef` magic value.
-/

namespace DafBase

/-- `Citizen::memId`, C++ `unsigned long` (64-bit); values are kept in `Nat`
with explicit reduction `% 2^64` where the code does unsigned arithmetic. -/
abbrev MemId := Nat

/-- `pthread_t`, modelled as a natural number; `0` stands for the
value-initialized (null) thread id that `std::map::operator[]` produces. -/
abbrev ThreadId := Nat

/-- The address of a Citizen object (`Citizen const*`), used only as a map
key, modelled as a natural number. -/
abbrev Identity := Nat

/-- Modulus of C++ `unsigned long` arithmetic. -/
def uint64Mod : Nat := 18446744073709551616

/-- C++ `unsigned long` addition: `a + b` reduced modulo `2^64`. -/
def uadd (a b : Nat) : Nat := (a + b) % uint64Mod

/-- 32-bit two's-complement reinterpretation of a bit pattern, used to model
storing the `magicSentinel` enum value in the `int _sentinel` field. -/
def toInt32 (n : Nat) : Int :=
  let m := n % 4294967296
  if m < 2147483648 then (m : Int) else (m : Int) - 4294967296

/-- `Citizen::magicSentinel = 0xdeadbeef` (the enum's bit pattern). -/
def magicSentinel : Nat := 3735928559

/-- The value actually held by `int _sentinel` after `_sentinel(magicSentinel)`:
the magic pattern converted to a signed 32-bit `int`. -/
def magicSentinelInt : Int := toInt32 magicSentinel

/-- The "dead" pattern `0x0000dead` written by the destructor. -/
def deadSentinelInt : Int := toInt32 57005

/-- `Citizen::CitizenInfo = std::pair<memId, pthread_t>`: the data stored for
each registered object. -/
structure CitizenInfo where
  id : MemId
  thread : ThreadId
deriving DecidableEq, Repr

/-- The value-initialized `CitizenInfo` that `std::map::operator[]` inserts
for an absent key: `std::pair<unsigned long, pthread_t>()` = `(0, 0)`. -/
def defaultInfo : CitizenInfo := ⟨0, 0⟩

/-- `Citizen::table = std::map<Citizen const*, CitizenInfo>`, modelled as an
association list from identities to infos. -/
abbrev Table := List (Identity × CitizenInfo)

namespace Table

/-- Lookup of a key (`std::map::find`). -/
def findEntry (t : Table) (k : Identity) : Option CitizenInfo :=
  match t with
  | [] => none
  | (k2, v) :: rest => if k2 = k then some v else findEntry rest k

/-- Whether the key is present (`std::map::count(k) != 0`). -/
def hasKey (t : Table) (k : Identity) : Bool :=
  t.any (fun e => e.1 == k)

/-- `std::map::operator[] = v`: replace the entry for `k`, or append it. -/
def setEntry (t : Table) (k : Identity) (v : CitizenInfo) : Table :=
  match t with
  | [] => [(k, v)]
  | (k2, w) :: rest => if k2 = k then (k, v) :: rest else (k2, w) :: setEntry rest k v

/-- Read of `std::map::operator[]`: return the entry for `k`, default-inserting
`defaultInfo` when `k` is absent.  Returns the value read and the table
after the (possible) insertion. -/
def getOrInsert (t : Table) (k : Identity) : CitizenInfo × Table :=
  match t.findEntry k with
  | some v => (v, t)
  | none => (defaultInfo, t ++ [(k, defaultInfo)])

/-- The number of entries removed by `std::map::erase(k)`. -/
def eraseCount (t : Table) (k : Identity) : Nat :=
  t.countP (fun e => e.1 == k)

/-- `std::map::erase(k)`: the table with every entry for `k` removed. -/
def eraseKey (t : Table) (k : Identity) : Table :=
  t.filter (fun e => ¬ e.1 == k)

/-- Well-formedness of a `std::map` image: keys occur at most once. -/
def NodupKeys (t : Table) : Prop :=
  (t.map Prod.fst).Nodup

instance (t : Table) : Decidable t.NodupKeys := by
  unfold NodupKeys; infer_instance

end Table

/-- One observable callback invocation or registry mutation, in program
order.  `newHook`/`deleteHook`/`corruptionHook` are invocations of
`_newCallback`/`_deleteCallback`/`_corruptionCallback`; `eraseEntry` is the
destructor's removal of the object's registry entry. -/
inductive Event where
  | newHook (cid : MemId)
  | deleteHook (self : Identity)
  | corruptionHook (self : Identity)
  | eraseEntry (self : Identity)
deriving DecidableEq, Repr

/-- A `Citizen` object: its own address (`this`), the `int _sentinel`, the
`memId _CitizenId` and the `const char* _typeName` fields. -/
structure Citizen where
  self : Identity
  sentinel : Int
  citizenId : MemId
  typeName : String
deriving DecidableEq, Repr

/-- The registry state seen by one thread: the two shared tables, the two
watch ids, the two callback slots whose return values the code consumes,
this thread's allocation counter (`perThreadId`) and persistence flag
(`perThreadPersistFlag`). -/
structure CitizenState where
  activeCitizens : Table
  persistentCitizens : Table
  newId : MemId
  deleteId : MemId
  newCallback : MemId → MemId
  deleteCallback : Citizen → MemId
  nextId : MemId
  persistFlag : Bool

/-- The state at process start: empty tables, watch ids 0, default callbacks
(which return their static `dId = 0`), per-thread counter seeded at 1,
persistence flag false. -/
def initState : CitizenState where
  activeCitizens := []
  persistentCitizens := []
  newId := 0
  deleteId := 0
  newCallback := fun _ => 0
  deleteCallback := fun _ => 0
  nextId := 1
  persistFlag := false

/-- `Citizen::_nextMemId()`: the value of the calling thread's counter,
returned without modifying anything. -/
def nextMemId (st : CitizenState) : MemId × CitizenState :=
  (st.nextId, st)

/-- `Citizen::getNextMemId()` just forwards to `_nextMemId`. -/
def getNextMemId (st : CitizenState) : MemId := (nextMemId st).1

/-- `Citizen::_nextMemIdAndIncrement()`: post-increment of the thread's
counter — returns the old value, stores old value + 1 (unsigned). -/
def nextMemIdAndIncrement (st : CitizenState) : MemId × CitizenState :=
  (st.nextId, { st with nextId := uadd st.nextId 1 })

/-- `Citizen::_shouldPersistCitizens()` as a read: the thread's flag. -/
def shouldPersistCitizens (st : CitizenState) : Bool := st.persistFlag

/-- `Citizen::_addCitizen(this)`: allocate the id, insert `(id, thread)`
into the persistent or active table according to the thread's persistence
flag, then fire `_newCallback` iff the allocated id equals `_newId`,
advancing `_newId` by the callback's return value.  Returns the new state,
the allocated id and the trace of callback invocations. -/
def addCitizen (st : CitizenState) (self : Identity) (thread : ThreadId) :
    CitizenState × MemId × List Event :=
  let cid := st.nextId
  ({ st with
      nextId := uadd st.nextId 1
      activeCitizens :=
        if shouldPersistCitizens st then st.activeCitizens
        else st.activeCitizens.setEntry self ⟨cid, thread⟩
      persistentCitizens :=
        if shouldPersistCitizens st then st.persistentCitizens.setEntry self ⟨cid, thread⟩
        else st.persistentCitizens
      newId :=
        if cid = st.newId then uadd st.newId (st.newCallback cid) else st.newId },
   cid,
   if cid = st.newId then [Event.newHook cid] else [])

/-- The `Citizen(std::type_info const&)` constructor: `_sentinel` set to the
magic pattern, `_CitizenId` from `_addCitizen(this)`, `_typeName` stored. -/
def constructCitizen (st : CitizenState) (self : Identity) (thread : ThreadId)
    (typeName : String) : CitizenState × Citizen × List Event :=
  let (st1, cid, ev) := addCitizen st self thread
  (st1, { self := self, sentinel := magicSentinelInt, citizenId := cid, typeName := typeName }, ev)

/-- `Citizen::_hasBeenCorrupted()`: false when `_sentinel` still equals
`static_cast<int>(magicSentinel)`; otherwise invokes `_corruptionCallback(this)`
and returns true.  The second component is the trace of hook invocations. -/
def hasBeenCorruptedPriv (c : Citizen) : Bool × List Event :=
  if c.sentinel = magicSentinelInt then (false, [])
  else (true, [Event.corruptionHook c.self])

/-- Result of running `Citizen::~Citizen()`: final shared state, the object's
fields as the destructor leaves them, the ordered trace of observable
actions, and the destructor's local `corrupt` flag (the structural
dangling-registration check, distinct from the sentinel check). -/
structure DtorResult where
  state : CitizenState
  freed : Citizen
  events : List Event
  structCorrupt : Bool

/-- `Citizen::~Citizen()`:
1. if `_CitizenId == _deleteId`, invoke `_deleteCallback(this)` and advance
   `_deleteId` by its return value;
2. run the sentinel check `_hasBeenCorrupted()` (which may invoke the
   corruption callback);
3. overwrite `_sentinel` with `0x0000dead`;
4. erase `this` from `_activeCitizens`; the structural flag
   `corrupt = nActive > 1 || (nActive == 0 && _persistentCitizens.erase(this) != 1)`
   — with `&&`/`||` short-circuit, so the persistent table is erased only
   when `nActive == 0`;
5. if `corrupt`, invoke `_corruptionCallback(this)`. -/
def destructor (st : CitizenState) (c : Citizen) : DtorResult :=
  let deleteEv := if c.citizenId = st.deleteId then [Event.deleteHook c.self] else []
  let deleteId1 :=
    if c.citizenId = st.deleteId then uadd st.deleteId (st.deleteCallback c) else st.deleteId
  let sentinelEv := (hasBeenCorruptedPriv c).2
  let nActive := st.activeCitizens.eraseCount c.self
  -- `&&`/`||` short-circuit: the persistent table is erased, and its erase
  -- count consulted, only in the `nActive == 0` case.
  let corrupt : Bool :=
    if nActive = 0 then decide (st.persistentCitizens.eraseCount c.self ≠ 1)
    else decide (nActive > 1)
  { state :=
      { st with
          deleteId := deleteId1
          activeCitizens := st.activeCitizens.eraseKey c.self
          persistentCitizens :=
            if nActive = 0 then st.persistentCitizens.eraseKey c.self
            else st.persistentCitizens }
    freed := { c with sentinel := deadSentinelInt }
    events := deleteEv ++ sentinelEv ++ [Event.eraseEntry c.self] ++
      (if corrupt then [Event.corruptionHook c.self] else [])
    structCorrupt := corrupt }

/-- `Citizen::markPersistent()`:
`_persistentCitizens[this] = _activeCitizens[this]; _activeCitizens.erase(this);`
— note `_activeCitizens[this]` default-inserts `(0, 0)` when `this` is not
in the active table. -/
def markPersistent (st : CitizenState) (self : Identity) : CitizenState :=
  let read := st.activeCitizens.getOrInsert self
  let pers1 := st.persistentCitizens.setEntry self read.1
  let act2 := read.2.eraseKey self
  { st with activeCitizens := act2, persistentCitizens := pers1 }

/-- `Citizen & operator=(Citizen const &) { return *this; }`: does nothing
and returns the target; no registry access at all. -/
def citizenAssign (st : CitizenState) (target : Citizen) (source : Citizen) :
    CitizenState × Citizen :=
  (st, target)

/-- Order used by `std::sort(vec.begin(), vec.end(), cmpId)` together with
the equal-id case: ascending by the Citizen id stored in the entry. -/
def leById (a b : Identity × CitizenInfo) : Prop := a.2.id ≤ b.2.id

instance : DecidableRel leById := fun a b => by
  unfold leById; infer_instance

instance : IsTotal (Identity × CitizenInfo) leById :=
  ⟨fun a b => Nat.le_total a.2.id b.2.id⟩

instance : IsTrans (Identity × CitizenInfo) leById :=
  ⟨fun _ _ _ hab hbc => Nat.le_trans hab hbc⟩

/-- `Citizen::census(memId startingMemId)`: collect the active entries whose
Citizen id is at least `startingMemId` and sort them ascending by id.
(The C++ reads the id through the stored object pointer, `citizen->getId()`;
for entries of the active table that field always equals the id recorded at
insertion, which is what the entry stores.) -/
def census (st : CitizenState) (startingMemId : MemId) : List (Identity × CitizenInfo) :=
  List.insertionSort leById
    (st.activeCitizens.filter (fun e => startingMemId ≤ e.2.id))

/-- `Citizen::countCitizens(memId startingMemId)`: active-table size when
`startingMemId == 0`, otherwise the number of active entries with id at
least `startingMemId`. -/
def countCitizens (st : CitizenState) (startingMemId : MemId) : Nat :=
  if startingMemId = 0 then st.activeCitizens.length
  else st.activeCitizens.countP (fun e => startingMemId ≤ e.2.id)

/-- `PersistentCitizenScope::PersistentCitizenScope()`:
sets the thread's persistence flag to true. -/
def persistentScopeEnter (st : CitizenState) : CitizenState :=
  { st with persistFlag := true }

/-- `PersistentCitizenScope::~PersistentCitizenScope()`:
sets the thread's persistence flag to false, unconditionally. -/
def persistentScopeExit (st : CitizenState) : CitizenState :=
  { st with persistFlag := false }

/-- Construct a sequence of citizens on one thread, collecting the assigned
ids in order. -/
def constructMany (st : CitizenState) (selves : List Identity) (thread : ThreadId)
    (typeName : String) : CitizenState × List MemId :=
  match selves with
  | [] => (st, [])
  | s :: rest =>
    let r := constructCitizen st s thread typeName
    let r2 := constructMany r.1 rest thread typeName
    (r2.1, r.2.1.citizenId :: r2.2)

/-- `Citizen::setNewCallbackId(id)`: store the allocate-watch id, return the
previous one. -/
def setNewCallbackId (st : CitizenState) (id : MemId) : CitizenState × MemId :=
  ({ st with newId := id }, st.newId)

/-- `Citizen::setDeleteCallbackId(id)`: store the delete-watch id, return the
previous one. -/
def setDeleteCallbackId (st : CitizenState) (id : MemId) : CitizenState × MemId :=
  ({ st with deleteId := id }, st.deleteId)

/-- `Citizen::setNewCallback(func)`: swap in a new allocate callback,
returning the old one. -/
def setNewCallback (st : CitizenState) (func : MemId → MemId) :
    CitizenState × (MemId → MemId) :=
  ({ st with newCallback := func }, st.newCallback)

/-- `Citizen::setDeleteCallback(func)`: swap in a new delete callback,
returning the old one. -/
def setDeleteCallback (st : CitizenState) (func : Citizen → MemId) :
    CitizenState × (Citizen → MemId) :=
  ({ st with deleteCallback := func }, st.deleteCallback)

/-- Whether an event is an invocation of the delete callback. -/
def isDeleteHook : Event → Bool
  | Event.deleteHook _ => true
  | _ => false

/-- The identity is registered in exactly one of the two tables. -/
def inExactlyOne (st : CitizenState) (k : Identity) : Prop :=
  (st.activeCitizens.hasKey k = true ∧ st.persistentCitizens.hasKey k = false) ∨
  (st.activeCitizens.hasKey k = false ∧ st.persistentCitizens.hasKey k = true)

/-- The identity is registered in neither table. -/
def inNeither (st : CitizenState) (k : Identity) : Prop :=
  st.activeCitizens.hasKey k = false ∧ st.persistentCitizens.hasKey k = false

instance (st : CitizenState) (k : Identity) : Decidable (inExactlyOne st k) := by
  unfold inExactlyOne; infer_instance

instance (st : CitizenState) (k : Identity) : Decidable (inNeither st k) := by
  unfold inNeither; infer_instance

/-- A thread whose counter has reached 15, with the allocate watch armed to
id 15 through `setNewCallbackId` and a callback returning 5 installed
through `setNewCallback` (the concrete scenario of the spec). -/
def armedState : CitizenState :=
  (setNewCallback ((setNewCallbackId { initState with nextId := 15 } 15).1)
    (fun _ => 5)).1

/-- The state after constructing one citizen at address 7 from the start
state. -/
def exampleState : CitizenState := (constructCitizen initState 7 0 "A").1

/-- The citizen constructed at address 7 from the start state. -/
def exampleCitizen : Citizen := (constructCitizen initState 7 0 "A").2.1

/-- A state whose delete watch has been armed to id 1 via
`setDeleteCallbackId`. -/
def deleteWatchSt : CitizenState := (setDeleteCallbackId initState 1).1

/-- A live citizen with id 1 at address 5. -/
def citizenA : Citizen :=
  { self := 5, sentinel := magicSentinelInt, citizenId := 1, typeName := "A" }

/-- A live citizen with id 2 at address 6 (does not match the armed delete
watch). -/
def citizenB : Citizen :=
  { self := 6, sentinel := magicSentinelInt, citizenId := 2, typeName := "B" }

/-- A citizen whose sentinel has been overwritten with 0. -/
def citizenC : Citizen :=
  { self := 5, sentinel := 0, citizenId := 1, typeName := "C" }

/-- A freshly built citizen record with the magic sentinel. -/
def citizenD : Citizen :=
  { self := 1, sentinel := magicSentinelInt, citizenId := 1, typeName := "D" }

/-! ### Helper lemmas about the table operations -/

theorem Table.hasKey_eq_false_iff (t : Table) (k : Identity) :
    t.hasKey k = false ↔ ∀ e ∈ t, e.1 ≠ k := by
  simp [Table.hasKey]

theorem Table.hasKey_eq_true_iff (t : Table) (k : Identity) :
    t.hasKey k = true ↔ ∃ e ∈ t, e.1 = k := by
  simp [Table.hasKey]

theorem Table.eraseCount_eq_zero_iff (t : Table) (k : Identity) :
    t.eraseCount k = 0 ↔ t.hasKey k = false := by
  simp [Table.eraseCount, List.countP_eq_zero, Table.hasKey_eq_false_iff]

theorem Table.hasKey_setEntry_self (t : Table) (k : Identity) (v : CitizenInfo) :
    (t.setEntry k v).hasKey k = true := by
  induction t with
  | nil => simp [Table.setEntry, Table.hasKey]
  | cons e rest ih =>
    cases e with
    | mk k2 w =>
      by_cases he : k2 = k
      · simp [Table.setEntry, he, Table.hasKey]
      · simp [Table.setEntry, he, Table.hasKey] at ih ⊢
        exact ih

theorem Table.hasKey_eraseKey_self (t : Table) (k : Identity) :
    (t.eraseKey k).hasKey k = false := by
  rw [Table.hasKey_eq_false_iff]
  intro e he
  simp [Table.eraseKey, List.mem_filter] at he
  exact he.2

theorem Table.eraseKey_of_hasKey_false (t : Table) (k : Identity)
    (h : t.hasKey k = false) : t.eraseKey k = t := by
  rw [Table.hasKey_eq_false_iff] at h
  rw [Table.eraseKey, List.filter_eq_self]
  intro e he
  simpa using h e he

theorem Table.findEntry_eq_none_of_hasKey_false (t : Table) (k : Identity)
    (h : t.hasKey k = false) : t.findEntry k = none := by
  rw [Table.hasKey_eq_false_iff] at h
  induction t with
  | nil => rfl
  | cons e rest ih =>
    have h1 : e.1 ≠ k := h e (by simp)
    cases e with
    | mk k2 w =>
      simp only at h1
      simp only [Table.findEntry, if_neg h1]
      exact ih (fun e2 he2 => h e2 (by simp [he2]))

theorem Table.eraseKey_append (t1 t2 : Table) (k : Identity) :
    (t1 ++ t2).eraseKey k = t1.eraseKey k ++ t2.eraseKey k := by
  simp [Table.eraseKey, List.filter_append]

theorem Table.eraseCount_le_one_of_nodup (t : Table) (k : Identity)
    (h : t.NodupKeys) : t.eraseCount k ≤ 1 := by
  induction t with
  | nil => simp [Table.eraseCount]
  | cons e rest ih =>
    simp only [Table.NodupKeys, List.map_cons, List.nodup_cons] at h
    by_cases he : e.1 = k
    · have hrest : Table.eraseCount rest k = 0 := by
        rw [Table.eraseCount_eq_zero_iff, Table.hasKey_eq_false_iff]
        intro e2 he2 hk2
        exact h.1 (by rw [he, ← hk2]; exact List.mem_map_of_mem Prod.fst he2)
      have hcons : Table.eraseCount (e :: rest) k = Table.eraseCount rest k + 1 := by
        simp [Table.eraseCount, List.countP_cons, he]
      rw [hcons, hrest]
    · have hih := ih h.2
      have hcons : Table.eraseCount (e :: rest) k = Table.eraseCount rest k := by
        simp [Table.eraseCount, List.countP_cons, he]
      rw [hcons]
      exact hih

/-! ### Claim theorems -/

/-- Ids assigned by a sequence of constructions on one thread are the
consecutive values starting at the thread counter, while the counter does
not wrap. -/
theorem cons_map_range (a n : Nat) :
    a :: (List.range n).map (fun k => a + 1 + k) =
      (List.range (n + 1)).map (fun k => a + k) := by
  rw [List.range_succ_eq_map, List.map_cons, List.map_map]
  refine List.cons_eq_cons.mpr ⟨by show a = a + 0; omega, List.map_congr_left fun x hx => ?_⟩
  show a + 1 + x = a + (x + 1)
  omega

theorem constructMany_ids (thread : ThreadId) (tn : String) :
    ∀ (selves : List Identity) (st : CitizenState),
      st.nextId + selves.length < uint64Mod →
      (constructMany st selves thread tn).2 =
        (List.range selves.length).map (fun k => st.nextId + k)
  | [], _, _ => rfl
  | s :: rest, st, h => by
    rw [List.length_cons] at h
    have hlt : st.nextId + 1 < uint64Mod :=
      Nat.lt_of_le_of_lt (Nat.add_le_add_left (Nat.succ_le_succ (Nat.zero_le _)) _) h
    have hnext : (constructCitizen st s thread tn).1.nextId = st.nextId + 1 := by
      show (st.nextId + 1) % uint64Mod = st.nextId + 1
      exact Nat.mod_eq_of_lt hlt
    have hrec := constructMany_ids thread tn rest (constructCitizen st s thread tn).1
      (by rw [hnext, Nat.add_assoc, Nat.add_comm 1 rest.length]; exact h)
    show st.nextId :: (constructMany (constructCitizen st s thread tn).1 rest thread tn).2 =
      (List.range (rest.length + 1)).map (fun k => st.nextId + k)
    rw [hrec, hnext]
    exact cons_map_range st.nextId rest.length

/-- Claim C4: `getNextMemId` (peekNext) returns the id the next construction
on this thread will assign, mutating nothing, and N sequential
constructions assign the consecutive ids
`getNextMemId st, getNextMemId st + 1, ..., getNextMemId st + N - 1`
(hypothesis: the 64-bit per-thread counter does not wrap). -/
theorem getNextMemId_consecutive (st : CitizenState) (self : Identity)
    (selves : List Identity) (thread : ThreadId) (tn : String)
    (h : st.nextId + selves.length < uint64Mod) :
    (nextMemId st).2 = st ∧
    (constructCitizen st self thread tn).2.1.citizenId = getNextMemId st ∧
    (constructMany st selves thread tn).2 =
      (List.range selves.length).map (fun k => getNextMemId st + k) :=
  ⟨rfl, rfl, constructMany_ids thread tn selves st h⟩

/-- Witness for `getNextMemId_consecutive`: from the start state, three
constructions receive ids 1, 2, 3. -/
theorem getNextMemId_consecutive_witness :
    initState.nextId + [10, 11, 12].length < uint64Mod ∧
    ((nextMemId initState).2 = initState ∧
     (constructCitizen initState 10 0 "T").2.1.citizenId = getNextMemId initState ∧
     (constructMany initState [10, 11, 12] 0 "T").2 =
       (List.range [10, 11, 12].length).map (fun k => getNextMemId initState + k)) :=
  ⟨by decide, getNextMemId_consecutive initState 10 [10, 11, 12] 0 "T" (by decide)⟩

/-- Claim C5: the allocate hook fires during construction iff the allocated
id equals the allocate-watch id, and then the watch id advances by the
callback's returned delta; with the watch armed to 15 and a callback
returning 5, the construction receiving id 15 fires the hook once and the
watch id becomes 20. -/
theorem newWatch_fire (st : CitizenState) (self : Identity) (thread : ThreadId)
    (tn : String) :
    (constructCitizen st self thread tn).2.2 =
      (if st.nextId = st.newId then [Event.newHook st.nextId] else []) ∧
    (constructCitizen st self thread tn).1.newId =
      (if st.nextId = st.newId then uadd st.newId (st.newCallback st.nextId)
       else st.newId) ∧
    (constructCitizen armedState 9 0 "W").2.2 = [Event.newHook 15] ∧
    (constructCitizen armedState 9 0 "W").1.newId = 20 :=
  ⟨rfl, rfl, by decide, by decide⟩

/-- Claim C8: with the thread's persistence flag set, a new registration
lands in the persistent table and the active table is untouched; entering a
`PersistentCitizenScope` sets the flag, exiting clears it unconditionally,
so an inner nested scope's exit clears the flag even though the outer scope
is still open. -/
theorem persistentScope_flag (st st2 : CitizenState) (self : Identity)
    (thread : ThreadId) (tn : String) (hflag : st.persistFlag = true) :
    (constructCitizen st self thread tn).1.persistentCitizens =
      st.persistentCitizens.setEntry self ⟨st.nextId, thread⟩ ∧
    (constructCitizen st self thread tn).1.activeCitizens = st.activeCitizens ∧
    (persistentScopeEnter st2).persistFlag = true ∧
    (persistentScopeExit st2).persistFlag = false ∧
    (persistentScopeEnter (persistentScopeEnter st2)).persistFlag = true ∧
    (persistentScopeExit (persistentScopeEnter (persistentScopeEnter st2))).persistFlag
      = false := by
  refine ⟨?_, ?_, rfl, rfl, rfl, rfl⟩ <;>
    simp [constructCitizen, addCitizen, shouldPersistCitizens, hflag]

/-- Witness for `persistentScope_flag` at the state just after entering a
scope from the start state. -/
theorem persistentScope_flag_witness :
    (persistentScopeEnter initState).persistFlag = true ∧
    ((constructCitizen (persistentScopeEnter initState) 3 0 "S").1.persistentCitizens =
       (persistentScopeEnter initState).persistentCitizens.setEntry 3
         ⟨(persistentScopeEnter initState).nextId, 0⟩ ∧
     (constructCitizen (persistentScopeEnter initState) 3 0 "S").1.activeCitizens =
       (persistentScopeEnter initState).activeCitizens ∧
     (persistentScopeEnter initState).persistFlag = true ∧
     (persistentScopeExit initState).persistFlag = false ∧
     (persistentScopeEnter (persistentScopeEnter initState)).persistFlag = true ∧
     (persistentScopeExit (persistentScopeEnter (persistentScopeEnter initState))).persistFlag
       = false) :=
  ⟨rfl, persistentScope_flag (persistentScopeEnter initState) initState 3 0 "S" rfl⟩

/-- Claim C9: the per-object corruption check is false straight after
construction (the sentinel holds the magic pattern); it returns true, and
invokes the corruption hook in doing so, exactly when the sentinel no
longer equals the magic pattern — in particular after the sentinel is
overwritten with any other value while the object is alive. -/
theorem hasBeenCorruptedPriv_spec (st : CitizenState) (self : Identity)
    (thread : ThreadId) (tn : String) (c : Citizen) (s : Int)
    (hs : s ≠ magicSentinelInt) :
    (hasBeenCorruptedPriv (constructCitizen st self thread tn).2.1).1 = false ∧
    (hasBeenCorruptedPriv (constructCitizen st self thread tn).2.1).2 = [] ∧
    ((hasBeenCorruptedPriv c).1 = true ↔ c.sentinel ≠ magicSentinelInt) ∧
    (hasBeenCorruptedPriv c).2 =
      (if c.sentinel = magicSentinelInt then [] else [Event.corruptionHook c.self]) ∧
    (hasBeenCorruptedPriv { c with sentinel := s }).1 = true ∧
    (hasBeenCorruptedPriv { c with sentinel := s }).2 = [Event.corruptionHook c.self] := by
  refine ⟨rfl, rfl, ?_, ?_, ?_, ?_⟩
  · by_cases hc : c.sentinel = magicSentinelInt <;> simp [hasBeenCorruptedPriv, hc]
  · by_cases hc : c.sentinel = magicSentinelInt <;> simp [hasBeenCorruptedPriv, hc]
  · simp [hasBeenCorruptedPriv, hs]
  · simp [hasBeenCorruptedPriv, hs]

/-- Witness for `hasBeenCorruptedPriv_spec`: a fresh citizen checks clean,
and overwriting its sentinel with 0 makes the check report corruption. -/
theorem hasBeenCorruptedPriv_spec_witness :
    (0 : Int) ≠ magicSentinelInt ∧
    ((hasBeenCorruptedPriv (constructCitizen initState 4 0 "D").2.1).1 = false ∧
     (hasBeenCorruptedPriv (constructCitizen initState 4 0 "D").2.1).2 = [] ∧
     ((hasBeenCorruptedPriv citizenD).1 = true ↔ citizenD.sentinel ≠ magicSentinelInt) ∧
     (hasBeenCorruptedPriv citizenD).2 =
       (if citizenD.sentinel = magicSentinelInt then []
        else [Event.corruptionHook citizenD.self]) ∧
     (hasBeenCorruptedPriv { citizenD with sentinel := 0 }).1 = true ∧
     (hasBeenCorruptedPriv { citizenD with sentinel := 0 }).2 =
       [Event.corruptionHook citizenD.self]) :=
  ⟨by decide, hasBeenCorruptedPriv_spec initState 4 0 "D" citizenD 0 (by decide)⟩

/-- Claim C10: `operator=` on a Citizen is a pure no-op for the
instrumentation: the target keeps its id, sentinel and type name, and the
registry state is untouched. -/
theorem citizenAssign_frame (st : CitizenState) (target source : Citizen) :
    citizenAssign st target source = (st, target) ∧
    (citizenAssign st target source).2.citizenId = target.citizenId ∧
    (citizenAssign st target source).2.sentinel = target.sentinel ∧
    (citizenAssign st target source).2.typeName = target.typeName ∧
    (citizenAssign st target source).1.activeCitizens = st.activeCitizens ∧
    (citizenAssign st target source).1.persistentCitizens = st.persistentCitizens :=
  ⟨rfl, rfl, rfl, rfl, rfl, rfl⟩

/-- Claim C1 counterexample: calling `markPersistent` on an identity that is
in neither table (here: identity 5 against the empty start state) does not
leave the persistent set unchanged — `_activeCitizens[this]` default-inserts
an entry that is then copied into the persistent table. -/
theorem markPersistent_nonactive_cex :
    ¬ ((markPersistent initState 5).activeCitizens = initState.activeCitizens ∧
       (markPersistent initState 5).persistentCitizens = initState.persistentCitizens) := by
  decide

/-- Claim C1 as amended: `markPersistent` on an identity that is not in the
active table does not crash and leaves the active table (and the watch ids,
counter and flag) unchanged, but it writes a default entry — id 0, null
thread — for that identity into the persistent table (overwriting any entry
already there). -/
theorem markPersistent_nonactive (st : CitizenState) (self : Identity)
    (h : st.activeCitizens.hasKey self = false) :
    (markPersistent st self).activeCitizens = st.activeCitizens ∧
    (markPersistent st self).persistentCitizens =
      st.persistentCitizens.setEntry self defaultInfo ∧
    (markPersistent st self).newId = st.newId ∧
    (markPersistent st self).deleteId = st.deleteId ∧
    (markPersistent st self).nextId = st.nextId ∧
    (markPersistent st self).persistFlag = st.persistFlag := by
  have hf : st.activeCitizens.findEntry self = none :=
    Table.findEntry_eq_none_of_hasKey_false _ _ h
  refine ⟨?_, ?_, rfl, rfl, rfl, rfl⟩
  · show (st.activeCitizens.getOrInsert self).2.eraseKey self = st.activeCitizens
    rw [Table.getOrInsert, hf]
    rw [Table.eraseKey_append, Table.eraseKey_of_hasKey_false _ _ h]
    simp [Table.eraseKey]
  · show st.persistentCitizens.setEntry self (st.activeCitizens.getOrInsert self).1 =
      st.persistentCitizens.setEntry self defaultInfo
    rw [Table.getOrInsert, hf]

/-- Witness for `markPersistent_nonactive` at the start state and identity 5. -/
theorem markPersistent_nonactive_witness :
    initState.activeCitizens.hasKey 5 = false ∧
    ((markPersistent initState 5).activeCitizens = initState.activeCitizens ∧
     (markPersistent initState 5).persistentCitizens =
       initState.persistentCitizens.setEntry 5 defaultInfo ∧
     (markPersistent initState 5).newId = initState.newId ∧
     (markPersistent initState 5).deleteId = initState.deleteId ∧
     (markPersistent initState 5).nextId = initState.nextId ∧
     (markPersistent initState 5).persistFlag = initState.persistFlag) :=
  ⟨by decide, markPersistent_nonactive initState 5 (by decide)⟩

/-- Claim C2: the destructor's structural check fires the corruption hook
exactly when the erase count from the active table was more than 1 — for a
well-formed `std::map` state, impossible — or was 0 while the identity was
also absent from the persistent table (the object registered in neither
table); the flag does not depend on the sentinel value, so the check is
independent of the sentinel check. -/
theorem destructor_structural (st : CitizenState) (c : Citizen) (s1 s2 : Int)
    (hA : st.activeCitizens.NodupKeys) (hP : st.persistentCitizens.NodupKeys) :
    ((destructor st c).structCorrupt = true ↔
      (Table.eraseCount st.activeCitizens c.self > 1 ∨
       (Table.eraseCount st.activeCitizens c.self = 0 ∧
        st.persistentCitizens.hasKey c.self = false))) ∧
    (destructor st { c with sentinel := s1 }).structCorrupt =
      (destructor st { c with sentinel := s2 }).structCorrupt ∧
    ((destructor st c).structCorrupt = true →
      Event.corruptionHook c.self ∈ (destructor st c).events) := by
  have hsc : (destructor st c).structCorrupt =
      (if Table.eraseCount st.activeCitizens c.self = 0
       then decide (Table.eraseCount st.persistentCitizens c.self ≠ 1)
       else decide (Table.eraseCount st.activeCitizens c.self > 1)) := rfl
  refine ⟨?_, rfl, ?_⟩
  · by_cases h0 : Table.eraseCount st.activeCitizens c.self = 0
    · rw [hsc, if_pos h0]
      have hple := Table.eraseCount_le_one_of_nodup st.persistentCitizens c.self hP
      constructor
      · intro hd
        have hne : Table.eraseCount st.persistentCitizens c.self ≠ 1 := of_decide_eq_true hd
        have hz : Table.eraseCount st.persistentCitizens c.self = 0 := by omega
        exact Or.inr ⟨h0, (Table.eraseCount_eq_zero_iff _ _).mp hz⟩
      · intro hd
        rcases hd with hgt | ⟨_, habs⟩
        · omega
        · have hz : Table.eraseCount st.persistentCitizens c.self = 0 :=
            (Table.eraseCount_eq_zero_iff _ _).mpr habs
          exact decide_eq_true (by omega)
    · rw [hsc, if_neg h0]
      have hale := Table.eraseCount_le_one_of_nodup st.activeCitizens c.self hA
      constructor
      · intro hd
        have := of_decide_eq_true hd
        omega
      · intro hd
        rcases hd with hgt | ⟨hz, _⟩
        · omega
        · exact absurd hz h0
  · intro hcor
    show Event.corruptionHook c.self ∈ (destructor st c).events
    have hev : (destructor st c).events =
        (if c.citizenId = st.deleteId then [Event.deleteHook c.self] else []) ++
          (hasBeenCorruptedPriv c).2 ++ [Event.eraseEntry c.self] ++
          (if (destructor st c).structCorrupt then [Event.corruptionHook c.self] else []) :=
      rfl
    rw [hev, hcor]
    simp

/-- Witness for `destructor_structural`: destroying a citizen registered in
neither table (the start state) trips the structural check. -/
theorem destructor_structural_witness :
    Table.NodupKeys initState.activeCitizens ∧
    Table.NodupKeys initState.persistentCitizens ∧
    (((destructor initState citizenC).structCorrupt = true ↔
       (Table.eraseCount initState.activeCitizens citizenC.self > 1 ∨
        (Table.eraseCount initState.activeCitizens citizenC.self = 0 ∧
         initState.persistentCitizens.hasKey citizenC.self = false))) ∧
     (destructor initState { citizenC with sentinel := 0 }).structCorrupt =
       (destructor initState { citizenC with sentinel := 1 }).structCorrupt ∧
     ((destructor initState citizenC).structCorrupt = true →
       Event.corruptionHook citizenC.self ∈ (destructor initState citizenC).events)) :=
  ⟨by decide, by decide, destructor_structural initState citizenC 0 1 (by decide) (by decide)⟩

/-- Claim C3: the census lists exactly the active-table entries with id at
least `minId`, in ascending id order; `minId = 0` lists every active entry;
the persistent table never contributes; and `countCitizens minId` equals
the length of that listing. -/
theorem census_spec (st : CitizenState) (m : MemId) (e : Identity × CitizenInfo)
    (p : Table) :
    (e ∈ census st m ↔ e ∈ st.activeCitizens ∧ m ≤ e.2.id) ∧
    (e ∈ census st 0 ↔ e ∈ st.activeCitizens) ∧
    List.Sorted leById (census st m) ∧
    countCitizens st m = (census st m).length ∧
    census { st with persistentCitizens := p } m = census st m := by
  refine ⟨?_, ?_, ?_, ?_, rfl⟩
  · rw [census, List.mem_insertionSort]
    simp [List.mem_filter]
  · rw [census, List.mem_insertionSort]
    simp [List.mem_filter]
  · exact List.sorted_insertionSort leById _
  · rw [census, List.length_insertionSort]
    by_cases h0 : m = 0
    · rw [countCitizens, if_pos h0, h0]
      simp
    · rw [countCitizens, if_neg h0, List.countP_eq_length_filter]

theorem countP_isDeleteHook_sentinelEv (d : Citizen) :
    (hasBeenCorruptedPriv d).2.countP (fun e => isDeleteHook e) = 0 := by
  by_cases hd : d.sentinel = magicSentinelInt <;>
    simp [hasBeenCorruptedPriv, hd, isDeleteHook]

theorem filter_isDeleteHook_sentinelEv (d : Citizen) :
    (hasBeenCorruptedPriv d).2.filter (fun e => isDeleteHook e) = [] := by
  by_cases hd : d.sentinel = magicSentinelInt <;>
    simp [hasBeenCorruptedPriv, hd, isDeleteHook]

theorem isDeleteHook_sentinelEv (d : Citizen) :
    ∀ a ∈ (hasBeenCorruptedPriv d).2, isDeleteHook a = false := by
  intro a ha
  by_cases hd : d.sentinel = magicSentinelInt
  · simp [hasBeenCorruptedPriv, hd] at ha
  · simp [hasBeenCorruptedPriv, hd] at ha
    rw [ha]
    rfl

/-- Claim C6: with the delete watch armed to a live object's id, destroying
that object invokes the delete callback exactly once, with that object,
and the invocation precedes the removal of the object's registry entry;
destroying an object whose id does not match never invokes it. -/
theorem deleteWatch_fire (st : CitizenState) (c c2 : Citizen)
    (hm : st.deleteId = c.citizenId) (hn : st.deleteId ≠ c2.citizenId) :
    (destructor st c).events =
      Event.deleteHook c.self :: ((hasBeenCorruptedPriv c).2 ++ Event.eraseEntry c.self ::
        (if (destructor st c).structCorrupt then [Event.corruptionHook c.self] else [])) ∧
    (destructor st c).events.countP (fun e => isDeleteHook e) = 1 ∧
    (destructor st c2).events.filter (fun e => isDeleteHook e) = [] := by
  have hev : ∀ d : Citizen, (destructor st d).events =
      (if d.citizenId = st.deleteId then [Event.deleteHook d.self] else []) ++
        (hasBeenCorruptedPriv d).2 ++ [Event.eraseEntry d.self] ++
        (if (destructor st d).structCorrupt then [Event.corruptionHook d.self] else []) :=
    fun _ => rfl
  refine ⟨?_, ?_, ?_⟩
  · rw [hev c, if_pos hm.symm]
    simp
  · rw [hev c, if_pos hm.symm]
    cases hb : (destructor st c).structCorrupt <;>
      · simp [List.countP_append, countP_isDeleteHook_sentinelEv, isDeleteHook, hb,
          List.countP_cons]
        exact isDeleteHook_sentinelEv c
  · rw [hev c2, if_neg (fun hcc => hn hcc.symm)]
    cases hb : (destructor st c2).structCorrupt <;>
      · simp [List.filter_append, filter_isDeleteHook_sentinelEv, isDeleteHook, hb]
        exact isDeleteHook_sentinelEv c2

/-- Witness for `deleteWatch_fire`: the delete watch armed to id 1, a
matching citizen at address 5 and a non-matching one at address 6. -/
theorem deleteWatch_fire_witness :
    deleteWatchSt.deleteId = citizenA.citizenId ∧
    deleteWatchSt.deleteId ≠ citizenB.citizenId ∧
    ((destructor deleteWatchSt citizenA).events =
       Event.deleteHook citizenA.self :: ((hasBeenCorruptedPriv citizenA).2 ++
         Event.eraseEntry citizenA.self ::
         (if (destructor deleteWatchSt citizenA).structCorrupt
          then [Event.corruptionHook citizenA.self] else [])) ∧
     (destructor deleteWatchSt citizenA).events.countP (fun e => isDeleteHook e) = 1 ∧
     (destructor deleteWatchSt citizenB).events.filter (fun e => isDeleteHook e) = []) :=
  ⟨by decide, by decide,
   deleteWatch_fire deleteWatchSt citizenA citizenB (by decide) (by decide)⟩

/-- Claim C7: construction registers a fresh identity in exactly one table,
`markPersistent` keeps the object's identity in exactly one table, and
destruction removes it from both, so an identity is in exactly one table
during the object's lifetime and in neither afterwards. -/
theorem registry_invariant (st : CitizenState) (self : Identity) (thread : ThreadId)
    (tn : String) (c : Citizen) (h1 : inNeither st self) (h2 : inExactlyOne st c.self) :
    inExactlyOne (constructCitizen st self thread tn).1 self ∧
    inExactlyOne (markPersistent st c.self) c.self ∧
    inNeither (destructor st c).state c.self := by
  refine ⟨?_, ?_, ?_⟩
  · by_cases hp : shouldPersistCitizens st = true
    · refine Or.inr ⟨?_, ?_⟩
      · show Table.hasKey
          (if shouldPersistCitizens st = true then st.activeCitizens
           else st.activeCitizens.setEntry self ⟨st.nextId, thread⟩) self = false
        rw [if_pos hp]
        exact h1.1
      · show Table.hasKey
          (if shouldPersistCitizens st = true
           then st.persistentCitizens.setEntry self ⟨st.nextId, thread⟩
           else st.persistentCitizens) self = true
        rw [if_pos hp]
        exact Table.hasKey_setEntry_self _ _ _
    · refine Or.inl ⟨?_, ?_⟩
      · show Table.hasKey
          (if shouldPersistCitizens st = true then st.activeCitizens
           else st.activeCitizens.setEntry self ⟨st.nextId, thread⟩) self = true
        rw [if_neg hp]
        exact Table.hasKey_setEntry_self _ _ _
      · show Table.hasKey
          (if shouldPersistCitizens st = true
           then st.persistentCitizens.setEntry self ⟨st.nextId, thread⟩
           else st.persistentCitizens) self = false
        rw [if_neg hp]
        exact h1.2
  · exact Or.inr ⟨Table.hasKey_eraseKey_self _ _, Table.hasKey_setEntry_self _ _ _⟩
  · refine ⟨Table.hasKey_eraseKey_self _ _, ?_⟩
    show Table.hasKey
      (if Table.eraseCount st.activeCitizens c.self = 0
       then st.persistentCitizens.eraseKey c.self else st.persistentCitizens) c.self = false
    by_cases hz : Table.eraseCount st.activeCitizens c.self = 0
    · rw [if_pos hz]
      exact Table.hasKey_eraseKey_self _ _
    · rw [if_neg hz]
      rcases h2 with ⟨_, hpf⟩ | ⟨haf, _⟩
      · exact hpf
      · exact absurd ((Table.eraseCount_eq_zero_iff _ _).mpr haf) hz

/-- Witness for `registry_invariant`: the state holding the citizen built at
address 7, a fresh identity 8, and that citizen itself. -/
theorem registry_invariant_witness :
    inNeither exampleState 8 ∧ inExactlyOne exampleState exampleCitizen.self ∧
    (inExactlyOne (constructCitizen exampleState 8 0 "B").1 8 ∧
     inExactlyOne (markPersistent exampleState exampleCitizen.self) exampleCitizen.self ∧
     inNeither (destructor exampleState exampleCitizen).state exampleCitizen.self) :=
  ⟨by decide, by decide,
   registry_invariant exampleState 8 0 "B" exampleCitizen (by decide) (by decide)⟩

end DafBase
